import Mathlib

/-!
Shallow embedding of the series-aggregation core of the signoz-metrics-adapter
repository: the normalization of backend time-series responses and the
per-object / per-group aggregation performed by `GetMetricByName` and
`GetMetricBySelector`, plus the query-builder and client status handling.

Go `float64` values are modelled as exact rationals (`ℚ`); label maps
(`map[string]string`) are modelled as association lists with Go map lookup
semantics.
-/

set_option autoImplicit false

namespace SignozAdapter

/-- Association-list lookup, modelling a Go map read (`v, ok := m[k]`):
`some v` when the key is present, `none` otherwise. -/
def assocFind {β : Type} (m : List (String × β)) (k : String) : Option β :=
  match m with
  | [] => none
  | (k', v) :: rest => if k' = k then some v else assocFind rest k

@[simp] theorem assocFind_nil {β : Type} (k : String) :
    assocFind ([] : List (String × β)) k = none := rfl

@[simp] theorem assocFind_cons {β : Type} (k k' : String) (v : β)
    (rest : List (String × β)) :
    assocFind ((k', v) :: rest) k = if k' = k then some v else assocFind rest k := rfl

/-- The fixed identifying label used to correlate a series with a pod
(`const podLabelKey = "k8s.pod.name"`, provider.go line 24 / part_003 line 27). -/
def podLabelKey : String := "k8s.pod.name"

/-- Models `seriesValue` (provider.go lines 26-29 / part_003 lines 97-100): one
normalized series, a label map together with the series' single value. -/
structure seriesValue where
  Labels : List (String × String)
  Value : ℚ
deriving Repr, DecidableEq

/-- Go map read with default: `m[k]` on a `map[string]string` yields the zero
value `""` when the key is absent. -/
def labelsGet (m : List (String × String)) (k : String) : String :=
  (assocFind m k).getD ""

/-- The body of the first loop of `GetMetricByName` (provider.go lines 138-143):
accumulate the value when the identifying label equals the object name and set
the `found` flag. -/
def byNameStep (objectName : String) (acc : ℚ × Bool) (s : seriesValue) : ℚ × Bool :=
  if labelsGet s.Labels podLabelKey = objectName then (acc.1 + s.Value, true) else acc

/-- The aggregation performed by `GetMetricByName` (provider.go lines 135-148):
a first pass sums series whose `k8s.pod.name` label equals `objectName`;
when none matched, a second pass sums every series into the same total. -/
def metricByNameTotal (series : List seriesValue) (objectName : String) : ℚ :=
  let p := series.foldl (byNameStep objectName) ((0 : ℚ), false)
  if p.2 then p.1 else series.foldl (fun acc s => acc + s.Value) p.1

/-- The sum of the values of a list of normalized series. -/
def valueSum (series : List seriesValue) : ℚ :=
  (series.map seriesValue.Value).sum

/-- The series whose identifying label (read with Go map default `""`)
equals `objectName`. -/
def matchedSeries (series : List seriesValue) (objectName : String) : List seriesValue :=
  series.filter (fun s => labelsGet s.Labels podLabelKey = objectName)

theorem foldl_byNameStep (objectName : String) :
    ∀ (series : List seriesValue) (q : ℚ) (b : Bool),
      series.foldl (byNameStep objectName) (q, b) =
        (q + valueSum (matchedSeries series objectName),
          b || series.any (fun s => labelsGet s.Labels podLabelKey = objectName)) := by
  intro series
  induction series with
  | nil => intro q b; simp [valueSum, matchedSeries]
  | cons s rest ih =>
    intro q b
    by_cases h : labelsGet s.Labels podLabelKey = objectName
    · simp [List.foldl_cons, byNameStep, h, ih, matchedSeries, valueSum, add_assoc]
    · simp [List.foldl_cons, byNameStep, h, ih, matchedSeries, valueSum]

theorem foldl_add_value :
    ∀ (series : List seriesValue) (q : ℚ),
      series.foldl (fun acc s => acc + s.Value) q = q + valueSum series := by
  intro series
  induction series with
  | nil => intro q; simp [valueSum]
  | cons s rest ih => intro q; simp [List.foldl_cons, ih, valueSum, add_assoc]

/-- C3: when at least one series carries the identifying label equal to the
object name, `GetMetricByName` returns the sum of only the matching series'
values; the sum-all fallback does not trigger. -/
theorem getMetricByName_direct_match (series : List seriesValue) (objectName : String)
    (h : series.any (fun s => labelsGet s.Labels podLabelKey = objectName) = true) :
    metricByNameTotal series objectName = valueSum (matchedSeries series objectName) := by
  simp [metricByNameTotal, foldl_byNameStep, h]

/-- C3 witness: the spec's direct-match example — series
`[{target-pod, 3}, {other-pod, 99}]`, object `"target-pod"` gives `3`. -/
theorem getMetricByName_direct_match_witness :
    metricByNameTotal
        [⟨[("k8s.pod.name", "target-pod")], (3 : ℚ)⟩,
         ⟨[("k8s.pod.name", "other-pod")], (99 : ℚ)⟩] "target-pod" = 3 := by
  rw [getMetricByName_direct_match _ _ (by simp [labelsGet, assocFind, podLabelKey])]
  simp [valueSum, matchedSeries, labelsGet, assocFind, podLabelKey, List.filter]

/-- C1: when no series carries the identifying label equal to the object name,
`GetMetricByName` returns the sum of the values of all series (the fallback),
not `0` and not an error (the aggregation is a total function). -/
theorem getMetricByName_fallback (series : List seriesValue) (objectName : String)
    (h : series.any (fun s => labelsGet s.Labels podLabelKey = objectName) = false) :
    metricByNameTotal series objectName = valueSum series := by
  have hm : matchedSeries series objectName = [] := by
    simp only [matchedSeries, List.filter_eq_nil_iff]
    intro s hs
    have := List.any_eq_false.mp h s hs
    simpa using this
  simp [metricByNameTotal, foldl_byNameStep, h, hm, foldl_add_value, valueSum]

/-- C1 witness: the spec's fallback example — series
`[{other-pod, 3}, {other-pod, 4}]`, object `"target-pod"` gives `7` (not `0`). -/
theorem getMetricByName_fallback_witness :
    metricByNameTotal
        [⟨[("k8s.pod.name", "other-pod")], (3 : ℚ)⟩,
         ⟨[("k8s.pod.name", "other-pod")], (4 : ℚ)⟩] "target-pod" = 7 ∧ (7 : ℚ) ≠ 0 := by
  constructor
  · rw [getMetricByName_fallback _ _ (by simp [labelsGet, assocFind, podLabelKey])]
    norm_num [valueSum]
  · norm_num

/-- Insertion into the running-total map: `byPod[pod] += s.Value` on a Go
`map[string]float64`, where a missing key reads as `0`. -/
def addTo (m : List (String × ℚ)) (k : String) (v : ℚ) : List (String × ℚ) :=
  match m with
  | [] => [(k, v)]
  | (k', v') :: rest => if k' = k then (k', v' + v) :: rest else (k', v') :: addTo rest k v

/-- The body of the `byPod` loop of `GetMetricBySelector` (provider.go lines
183-187): series lacking the identifying label are skipped (`ok` is false). -/
def byPodStep (m : List (String × ℚ)) (s : seriesValue) : List (String × ℚ) :=
  match assocFind s.Labels podLabelKey with
  | some pod => addTo m pod s.Value
  | none => m

/-- The running-total map built by `GetMetricBySelector` (provider.go lines
182-187). -/
def byPodMap (series : List seriesValue) : List (String × ℚ) :=
  series.foldl byPodStep []

/-- The series that carry the identifying label with value `pod`. -/
def labeledSeries (series : List seriesValue) (pod : String) : List seriesValue :=
  series.filter (fun s => assocFind s.Labels podLabelKey = some pod)

/-- The item loop of `GetMetricBySelector` (provider.go lines 189-209),
restricted to the (object name, accumulated float total) content of each item:
object names absent from `byPod` are skipped. -/
def metricBySelectorItems (series : List seriesValue) (podNames : List String) :
    List (String × ℚ) :=
  podNames.foldl (fun items podName =>
    match assocFind (byPodMap series) podName with
    | some v => items ++ [(podName, v)]
    | none => items) []

theorem addTo_find (k k' : String) (v : ℚ) :
    ∀ m : List (String × ℚ),
      assocFind (addTo m k v) k' =
        if k = k' then some (((assocFind m k).getD 0) + v) else assocFind m k' := by
  intro m
  induction m with
  | nil =>
    by_cases h : k = k' <;> simp [addTo, assocFind, h]
  | cons p rest ih =>
    obtain ⟨k₀, v₀⟩ := p
    by_cases h0 : k₀ = k
    · subst h0
      by_cases h : k₀ = k' <;> simp [addTo, assocFind, h]
    · by_cases h : k = k'
      · subst h
        simp [addTo, assocFind, h0, ih]
      · by_cases h1 : k₀ = k' <;>
          simp [addTo, assocFind, h0, h, h1, ih, Ne.symm h]

theorem foldl_byPodStep (pod : String) :
    ∀ (series : List seriesValue) (m : List (String × ℚ)),
      assocFind (series.foldl byPodStep m) pod =
        if labeledSeries series pod = [] then assocFind m pod
        else some (((assocFind m pod).getD 0) + valueSum (labeledSeries series pod)) := by
  intro series
  induction series with
  | nil => intro m; simp [labeledSeries]
  | cons s rest ih =>
    intro m
    cases hl : assocFind s.Labels podLabelKey with
    | none =>
      have hne : ¬(assocFind s.Labels podLabelKey = some pod) := by simp [hl]
      simp [List.foldl_cons, byPodStep, hl, ih, labeledSeries, List.filter_cons, hne]
    | some q =>
      by_cases hq : q = pod
      · rw [hq] at hl
        have hstep : byPodStep m s = addTo m pod s.Value := by simp [byPodStep, hl]
        have hlab : labeledSeries (s :: rest) pod = s :: labeledSeries rest pod := by
          simp [labeledSeries, List.filter_cons, hl]
        have hfind : assocFind (addTo m pod s.Value) pod =
            some (((assocFind m pod).getD 0) + s.Value) := by
          simp [addTo_find]
        rw [List.foldl_cons, hstep, ih, hlab]
        by_cases hrest : labeledSeries rest pod = []
        · simp [hrest, hfind, valueSum]
        · simp [hrest, hfind, valueSum, add_assoc]
      · have hne : ¬(assocFind s.Labels podLabelKey = some pod) := by simp [hl, hq]
        have hstep : byPodStep m s = addTo m q s.Value := by simp [byPodStep, hl]
        have hlab : labeledSeries (s :: rest) pod = labeledSeries rest pod := by
          simp [labeledSeries, List.filter_cons, hne]
        have hfind : assocFind (addTo m q s.Value) pod = assocFind m pod := by
          simp [addTo_find, hq]
        rw [List.foldl_cons, hstep, ih, hlab, hfind]

theorem byPodMap_find (series : List seriesValue) (pod : String) :
    assocFind (byPodMap series) pod =
      if labeledSeries series pod = [] then none
      else some (valueSum (labeledSeries series pod)) := by
  by_cases h : labeledSeries series pod = [] <;>
    simp [byPodMap, foldl_byPodStep, assocFind, h]

theorem metricBySelectorItems_eq_filterMap (series : List seriesValue) :
    ∀ (podNames : List String) (acc : List (String × ℚ)),
      podNames.foldl (fun items podName =>
        match assocFind (byPodMap series) podName with
        | some v => items ++ [(podName, v)]
        | none => items) acc =
      acc ++ podNames.filterMap (fun podName =>
        (assocFind (byPodMap series) podName).map (fun v => (podName, v))) := by
  intro podNames
  induction podNames with
  | nil => intro acc; simp
  | cons p rest ih =>
    intro acc
    cases hfind : assocFind (byPodMap series) p with
    | none => simp [List.foldl_cons, hfind, ih]
    | some v => simp [List.foldl_cons, hfind, ih]

/-- C2: the running-total map of `GetMetricBySelector` is keyed by the
identifying label; series lacking that label are excluded, each requested
object's item carries the sum of the values of the series labeled with it, and
an object with no accumulated entry produces no item at all. -/
theorem getMetricBySelector_group_aggregation (series : List seriesValue)
    (podNames : List String) (pod : String) :
    assocFind (metricBySelectorItems series podNames) pod =
      (if pod ∈ podNames ∧ labeledSeries series pod ≠ [] then
        some (valueSum (labeledSeries series pod))
      else none) := by
  rw [show metricBySelectorItems series podNames =
      podNames.filterMap (fun podName =>
        (assocFind (byPodMap series) podName).map (fun v => (podName, v))) by
    simpa [metricBySelectorItems] using metricBySelectorItems_eq_filterMap series podNames []]
  induction podNames with
  | nil => simp
  | cons p rest ih =>
    cases hfind : assocFind (byPodMap series) p with
    | none =>
      have hlp : labeledSeries series p = [] := by
        by_contra hne
        simp [byPodMap_find, hne] at hfind
      by_cases hpp : pod = p
      · subst hpp
        simp [List.filterMap_cons, hfind, ih, hlp]
      · simp [List.filterMap_cons, hfind, ih, List.mem_cons, hpp]
    | some v =>
      have hlp : ¬(labeledSeries series p = []) := by
        by_contra hne
        simp [byPodMap_find, hne] at hfind
      have hv : v = valueSum (labeledSeries series p) := by
        simp [byPodMap_find, hlp] at hfind
        exact hfind.symm
      by_cases hpp : p = pod
      · subst hpp
        simp [List.filterMap_cons, hfind, assocFind, hlp, hv]
      · have hpp' : ¬(pod = p) := fun hh => hpp hh.symm
        simp [List.filterMap_cons, hfind, assocFind, hpp, hpp', ih, List.mem_cons]

/-- C9: with an empty series list, `GetMetricByName` aggregates to the value
`0` (without error — the aggregation is total) and `GetMetricBySelector`
produces an empty item list for any set of object names. -/
theorem empty_series_zero_total_and_empty_items (objectName : String)
    (podNames : List String) :
    metricByNameTotal [] objectName = 0 ∧ metricBySelectorItems [] podNames = [] := by
  constructor
  · simp [metricByNameTotal]
  · rw [show metricBySelectorItems [] podNames =
        podNames.filterMap (fun podName =>
          (assocFind (byPodMap []) podName).map (fun v => (podName, v))) by
      simpa [metricBySelectorItems] using metricBySelectorItems_eq_filterMap [] podNames []]
    simp [byPodMap, assocFind]

/-- Models `isAllowedMetric` (provider.go lines 77-84): membership of the requested
name in the configured metric allow-list. -/
def isAllowedMetric (metrics : List String) (name : String) : Bool :=
  metrics.any (fun m => m == name)

/-- The error outcomes a provider call can produce in the modelled fragment:
the metric-not-found condition (`provider.NewMetricNotFoundForError`) or a
propagated backend/transport failure. -/
inductive ProviderError
  | metricNotFound (metric objectName : String)
  | backend (msg : String)
deriving Repr, DecidableEq

/-- Control flow of `GetMetricByName` (provider.go lines 124-161) up to the
aggregate float total: the allow-list is checked first and a miss returns the
not-found error before the backend is consulted; otherwise the backend query
runs (errors propagate) and the series are aggregated. The second component
records whether `signoz.Query` was invoked. The object reference resolution
(`helpers.ReferenceFor`) is outside the modelled fragment. -/
def getMetricByNameOutcome (metrics : List String) (metricName objectName : String)
    (backend : Except String (List seriesValue)) : Except ProviderError ℚ × Bool :=
  if isAllowedMetric metrics metricName = false then
    (Except.error (ProviderError.metricNotFound metricName objectName), false)
  else
    match backend with
    | Except.error e => (Except.error (ProviderError.backend e), true)
    | Except.ok series => (Except.ok (metricByNameTotal series objectName), true)

/-- Control flow of `GetMetricBySelector` (provider.go lines 163-211) up to the
per-object float totals: an allow-list miss returns an empty value list with
no error — and without consulting the backend; otherwise the backend query
runs and the items are aggregated per object name. The second component
records whether `signoz.Query` was invoked. -/
def getMetricBySelectorOutcome (metrics : List String) (metricName : String)
    (podNames : List String) (backend : Except String (List seriesValue)) :
    Except ProviderError (List (String × ℚ)) × Bool :=
  if isAllowedMetric metrics metricName = false then
    (Except.ok [], false)
  else
    match backend with
    | Except.error e => (Except.error (ProviderError.backend e), true)
    | Except.ok series => (Except.ok (metricBySelectorItems series podNames), true)

/-- C4 counterexample: for a metric outside the allow-list,
`GetMetricBySelector` does not report a "not found" condition — it returns an
empty value list with no error (though the backend is indeed not queried). -/
theorem getMetricBySelector_unrecognized_metric_counterexample :
    getMetricBySelectorOutcome ["cpu_usage"] "memory_usage" ["pod-a"]
        (Except.ok [⟨[("k8s.pod.name", "pod-a")], (5 : ℚ)⟩]) = (Except.ok [], false) := by
  rfl

/-- C4 (amended): a metric outside the allow-list never reaches the backend;
`GetMetricByName` reports the metric-not-found condition, while
`GetMetricBySelector` returns an empty value list with no error. -/
theorem unrecognized_metric_no_backend_query (metrics : List String)
    (metricName objectName : String) (podNames : List String)
    (backend : Except String (List seriesValue))
    (h : isAllowedMetric metrics metricName = false) :
    getMetricByNameOutcome metrics metricName objectName backend =
        (Except.error (ProviderError.metricNotFound metricName objectName), false) ∧
      getMetricBySelectorOutcome metrics metricName podNames backend =
        (Except.ok [], false) := by
  simp [getMetricByNameOutcome, getMetricBySelectorOutcome, h]

/-- C4 witness: metric `"mem"` with allow-list `["cpu_usage"]`. -/
theorem unrecognized_metric_no_backend_query_witness :
    getMetricByNameOutcome ["cpu_usage"] "mem" "pod-a" (Except.ok []) =
        (Except.error (ProviderError.metricNotFound "mem" "pod-a"), false) ∧
      getMetricBySelectorOutcome ["cpu_usage"] "mem" ["pod-a"] (Except.ok []) =
        (Except.ok [], false) :=
  unrecognized_metric_no_backend_query ["cpu_usage"] "mem" "pod-a" ["pod-a"]
    (Except.ok []) (by decide)

/-- Models `SignozMetricAggregation` (part_005 lines 18-24). -/
structure SignozMetricAggregation where
  MetricName : String
  Temporality : String
  TimeAggregation : String
  SpaceAggregation : String
  ReduceTo : String
deriving Repr, DecidableEq

/-- Models `SignozQueryGroupBy` (part_005 lines 26-30). -/
structure SignozQueryGroupBy where
  Name : String
  FieldDataType : String
  FieldContext : String
deriving Repr, DecidableEq

/-- Models `SignozQueryFilter` (part_005 lines 32-34). -/
structure SignozQueryFilter where
  Expression : String
deriving Repr, DecidableEq

/-- Models `SignozQuerySpec` (part_005 lines 36-47); pointer fields with `omitempty`
are modelled as `Option` (a `nil`/`none` filter is omitted from the emitted
JSON, so `none` means "no filter clause at all"). -/
structure SignozQuerySpec where
  Name : String
  Signal : String
  StepInterval : Int
  Disabled : Option Bool
  Aggregations : List SignozMetricAggregation
  GroupBy : List SignozQueryGroupBy
  Filter : Option SignozQueryFilter
  Having : Option SignozQueryFilter
  Limit : Int
  Offset : Int
deriving Repr, DecidableEq

/-- Models `SignozQuery` (part_005 lines 49-52). -/
structure SignozQuery where
  «Type» : String
  Spec : SignozQuerySpec
deriving Repr, DecidableEq

/-- Models `SignozCompositeQuery` (part_005 lines 54-56). -/
structure SignozCompositeQuery where
  Queries : List SignozQuery
deriving Repr, DecidableEq

/-- Models `SignozQueryRangeOptions` (part_005 lines 58-63). -/
structure SignozQueryRangeOptions where
  Start : Int
  End : Int
  RequestType : String
  CompositeQuery : SignozCompositeQuery
deriving Repr, DecidableEq

/-- Models `buildQuery` (provider.go lines 86-122). The wall clock is passed in as
`nowMilli` (the Go code calls `time.Now()` twice, nanoseconds apart; both
calls are modelled by the same instant), and zero-valued/omitted Go fields
become `0` / `""` / `none`. -/
def buildQuery (filterExpression : String) (timeRangeMinutes : Int) (nowMilli : Int)
    (metricName : String) : SignozQueryRangeOptions :=
  let query : SignozQuery := {
    «Type» := "builder_query"
    Spec := {
      Name := "A"
      Signal := "metrics"
      StepInterval := 60
      Disabled := none
      Aggregations := [{
        MetricName := metricName
        Temporality := ""
        TimeAggregation := "avg"
        SpaceAggregation := "avg"
        ReduceTo := "" }]
      GroupBy := [{
        Name := podLabelKey
        FieldDataType := "string"
        FieldContext := "resource" }]
      Filter := if filterExpression ≠ "" then some { Expression := filterExpression } else none
      Having := none
      Limit := 0
      Offset := 0 } }
  { RequestType := "time_series"
    Start := nowMilli - timeRangeMinutes * 60000
    End := nowMilli
    CompositeQuery := { Queries := [query] } }

/-- C8: the single query emitted by `buildQuery` carries the configured filter
expression verbatim as its query-level filter when the expression is
non-empty, and carries no filter clause at all (`none`, omitted from the JSON)
when it is empty. -/
theorem buildQuery_filter_clause (filterExpression : String)
    (timeRangeMinutes nowMilli : Int) (metricName : String) :
    (buildQuery filterExpression timeRangeMinutes nowMilli
        metricName).CompositeQuery.Queries.map (fun q => q.Spec.Filter) =
      [if filterExpression = "" then none
       else some { Expression := filterExpression }] := by
  by_cases h : filterExpression = "" <;> simp [buildQuery, h]

/-- Go's float-to-integer conversion `int64(x)`: the fractional part is
discarded, truncating toward zero. Values are exact rationals in the model;
the int64 range is not modelled. -/
def goInt64OfFloat (x : ℚ) : ℤ := if 0 ≤ x then ⌊x⌋ else ⌈x⌉

/-- The integer handed to `resource.NewMilliQuantity` by both
`GetMetricByName` (provider.go line 159) and `GetMetricBySelector` (line 207):
`int64(total*1000)`, interpreted by the caller in milli-units. -/
def reportedMilliValue (total : ℚ) : ℤ := goInt64OfFloat (total * 1000)

/-- C10 counterexample: the totals `0.0009` and `0.0015` differ by less than
one milli-unit (`0.0006 < 0.001`) yet are reported as the distinct values `0`
and `1`. -/
theorem reportedMilliValue_sub_milli_counterexample :
    reportedMilliValue (9 / 10000) = 0 ∧ reportedMilliValue (3 / 2000) = 1 ∧
      (3 / 2000 - 9 / 10000 : ℚ) < 1 / 1000 := by
  refine ⟨?_, ?_, by norm_num⟩ <;>
    norm_num [reportedMilliValue, goInt64OfFloat]

/-- C10 (amended): the reported value is `int64(total*1000)` — the total
scaled by 1000 and truncated toward zero (the floor, for nonnegative totals),
so sub-milli fractional parts are discarded; two nonnegative totals whose
scaled values share the same integer part are reported as the same value
(totals differing by less than one milli-unit may still straddle a milli
boundary and be reported differently). -/
theorem reportedMilliValue_truncates (t u : ℚ) (ht : 0 ≤ t) (hu : 0 ≤ u)
    (h : ⌊t * 1000⌋ = ⌊u * 1000⌋) :
    reportedMilliValue t = ⌊t * 1000⌋ ∧
      reportedMilliValue t = reportedMilliValue u := by
  have ht' : 0 ≤ t * 1000 := by positivity
  have hu' : 0 ≤ u * 1000 := by positivity
  constructor
  · simp [reportedMilliValue, goInt64OfFloat, ht']
  · simp [reportedMilliValue, goInt64OfFloat, ht', hu', h]

/-- C10 witness: `0.0021` and `0.0029` lie in the same milli-unit interval and
are both reported as `2`. -/
theorem reportedMilliValue_truncates_witness :
    reportedMilliValue (21 / 10000) = ⌊(21 / 10000 : ℚ) * 1000⌋ ∧
      reportedMilliValue (21 / 10000) = reportedMilliValue (29 / 10000) :=
  reportedMilliValue_truncates (21 / 10000) (29 / 10000)
    (by norm_num) (by norm_num) (by norm_num)

/-- Models `SignozSeriesValue` (part_005 lines 121-124): one timestamped point. -/
structure SignozSeriesValue where
  Timestamp : Int
  Value : ℚ
deriving Repr, DecidableEq

/-- Models `SignozLabel` (part_005 lines 99-106); the untyped JSON label value is
modelled by its `fmt.Sprintf("%v", ...)` rendering. -/
structure SignozLabel where
  KeyName : String
  Value : String
deriving Repr, DecidableEq

/-- Models `SignozResultSeries` (part_005 lines 108-111). -/
structure SignozResultSeries where
  Labels : List SignozLabel
  Values : List SignozSeriesValue
deriving Repr, DecidableEq

/-- Go map insertion `m[k] = v`: an existing binding for the key is
overwritten, otherwise the pair is added. -/
def mapSet (m : List (String × String)) (k v : String) : List (String × String) :=
  match m with
  | [] => [(k, v)]
  | (k', v') :: rest => if k' = k then (k, v) :: rest else (k', v') :: mapSet rest k v

/-- Models `SignozResultSeries.LabelMap` (part_005 lines 113-119): build a
`map[string]string` from the label list. -/
def SignozResultSeries.LabelMap (s : SignozResultSeries) : List (String × String) :=
  s.Labels.foldl (fun m l => mapSet m l.KeyName l.Value) []

/-- Models `SignozResultAggregation` (part_005 lines 92-97). -/
structure SignozResultAggregation where
  Index : Int
  Alias : String
  Series : List SignozResultSeries
deriving Repr, DecidableEq

/-- Models `SignozQueryResult` (part_005 lines 82-90), restricted to the fields the
core consumes. -/
structure SignozQueryResult where
  QueryName : String
  Aggregations : List SignozResultAggregation
deriving Repr, DecidableEq

/-- Models `SignozQueryRangeResponseData` (part_005 lines 76-80). -/
structure SignozQueryRangeResponseData where
  Results : List SignozQueryResult
deriving Repr, DecidableEq

/-- Models `SignozQueryRangeResponseWrapper` (part_005 lines 70-74); the Go `Type`
field is kept under its source name. -/
structure SignozQueryRangeResponseWrapper where
  «Type» : String
  Data : SignozQueryRangeResponseData
deriving Repr, DecidableEq

/-- Models `SignozQueryRangeResponse` (part_005 lines 65-68). -/
structure SignozQueryRangeResponse where
  Status : String
  Data : SignozQueryRangeResponseWrapper
deriving Repr, DecidableEq

/-- Models `SignozQueryRangeResponse.Series` (provider.go lines 31-48): the three
nested loops append, for every raw series with a non-empty `Values` list, one
normalized `seriesValue` holding the label map and the last point's value;
a series with empty `Values` is skipped (`continue`). -/
def SignozQueryRangeResponse.Series (resp : SignozQueryRangeResponse) : List seriesValue :=
  resp.Data.Data.Results.foldl (fun results qr =>
    qr.Aggregations.foldl (fun results agg =>
      agg.Series.foldl (fun results s =>
        match s.Values.getLast? with
        | none => results
        | some last => results ++ [{ Labels := s.LabelMap, Value := last.Value }]) results)
      results) []

/-- All raw series of a response, flattened in traversal order. -/
def SignozQueryRangeResponse.rawSeries (resp : SignozQueryRangeResponse) :
    List SignozResultSeries :=
  resp.Data.Data.Results.flatMap (fun qr => qr.Aggregations.flatMap (fun agg => agg.Series))

/-- The per-series normalization step: `none` exactly when the raw series has
an empty value sequence, otherwise the label map with the last point's value. -/
def normalizeSeries (s : SignozResultSeries) : Option seriesValue :=
  match s.Values.getLast? with
  | none => none
  | some last => some { Labels := s.LabelMap, Value := last.Value }

theorem foldl_appendLike {α β : Type} (f : List β → α → List β) (g : α → List β)
    (hf : ∀ (acc : List β) (x : α), f acc x = acc ++ g x) :
    ∀ (l : List α) (acc : List β), l.foldl f acc = acc ++ l.flatMap g := by
  intro l
  induction l with
  | nil => intro acc; simp
  | cons x rest ih =>
    intro acc
    rw [List.foldl_cons, hf, ih, List.flatMap_cons, List.append_assoc]

theorem foldl_normalize_series (l : List SignozResultSeries) (acc : List seriesValue) :
    l.foldl (fun results s =>
        match s.Values.getLast? with
        | none => results
        | some last => results ++ [{ Labels := s.LabelMap, Value := last.Value }]) acc =
      acc ++ l.flatMap (fun s => (normalizeSeries s).toList) := by
  refine foldl_appendLike _ _ ?_ l acc
  intro acc s
  cases hlast : s.Values.getLast? with
  | none => simp [hlast, normalizeSeries]
  | some last => simp [hlast, normalizeSeries]

theorem foldl_normalize_aggs (aggs : List SignozResultAggregation)
    (acc : List seriesValue) :
    aggs.foldl (fun results agg =>
        agg.Series.foldl (fun results s =>
          match s.Values.getLast? with
          | none => results
          | some last => results ++ [{ Labels := s.LabelMap, Value := last.Value }]) results)
        acc =
      acc ++ aggs.flatMap (fun agg =>
        agg.Series.flatMap (fun s => (normalizeSeries s).toList)) := by
  refine foldl_appendLike _ _ ?_ aggs acc
  intro acc agg
  exact foldl_normalize_series agg.Series acc

/-- C7: normalization selects exactly the last element of each raw series'
value sequence (the normalized list is, in order, one entry per raw series
with a non-empty value sequence, carrying that series' last value), and a
series with an empty value sequence contributes no entry — `Series` is a
total function, so no error arises. -/
theorem series_selects_last_value (resp : SignozQueryRangeResponse) :
    resp.Series = resp.rawSeries.filterMap normalizeSeries := by
  have hmain := foldl_appendLike
    (fun results qr => qr.Aggregations.foldl (fun results agg =>
      agg.Series.foldl (fun results s =>
        match s.Values.getLast? with
        | none => results
        | some last => results ++ [{ Labels := s.LabelMap, Value := last.Value }]) results)
      results)
    (fun qr => qr.Aggregations.flatMap (fun agg =>
      agg.Series.flatMap (fun s => (normalizeSeries s).toList)))
    (fun acc qr => foldl_normalize_aggs qr.Aggregations acc)
    resp.Data.Data.Results []
  rw [SignozQueryRangeResponse.Series, hmain, SignozQueryRangeResponse.rawSeries]
  simp [List.filterMap_flatMap, List.filterMap_eq_flatMap_toList, List.flatMap_assoc]

/-- An untyped JSON array element (`interface{}`), as far as the core
consumes it: a string, a number, or anything else. -/
inductive JsonValue
  | str (s : String)
  | num (q : ℚ)
  | other
deriving Repr, DecidableEq

/-- Go type assertion `x.(string)` with the failure flag ignored
(`raw, _ = last[1].(string)`, part_003 lines 109/112): a non-string value
leaves `raw` as the zero value `""`. -/
def JsonValue.asString : JsonValue → String
  | JsonValue.str s => s
  | JsonValue.num _ => ""
  | JsonValue.other => ""

/-- Models `promResult` (part_003 lines 81-85). -/
structure promResult where
  Metric : List (String × String)
  Value : List JsonValue
  Values : List (List JsonValue)
deriving Repr, DecidableEq

/-- Models `promData` (part_003 lines 87-90). -/
structure promData where
  ResultType : String
  Result : List promResult
deriving Repr, DecidableEq

/-- Models `promResponse` (part_003 lines 92-95). -/
structure promResponse where
  Status : String
  Data : promData
deriving Repr, DecidableEq

/-- The raw value string selected for one prom result (part_003 lines
104-113): the second component of the last row of `values` when `values` is
non-empty, otherwise the second component of `value`; when neither yields a
string the zero value `""` remains. -/
def promResult.rawValue (r : promResult) : String :=
  match r.Values.getLast? with
  | some last => if 2 ≤ last.length then (last.getD 1 JsonValue.other).asString else ""
  | none => if 2 ≤ r.Value.length then (r.Value.getD 1 JsonValue.other).asString else ""

/-- A parsed Go `float64`: a finite value (exact rational in the model), a
NaN, or a signed infinity. -/
inductive GoFloat
  | finite (q : ℚ)
  | nan
  | inf (neg : Bool)
deriving Repr, DecidableEq

def allDigits (cs : List Char) : Bool := cs.all (fun c => c.isDigit)

def digitsToNat (cs : List Char) : Nat :=
  cs.foldl (fun n c => 10 * n + (c.toNat - 48)) 0

/-- Split a character list at the first `.`. -/
def splitDot : List Char → List Char × Option (List Char)
  | [] => ([], none)
  | c :: rest =>
    if c = '.' then ([], some rest)
    else
      let (ip, fp) := splitDot rest
      (c :: ip, fp)

/-- Split a character list at the first `e`/`E`. -/
def splitExp : List Char → List Char × Option (List Char)
  | [] => ([], none)
  | c :: rest =>
    if c = 'e' ∨ c = 'E' then ([], some rest)
    else
      let (m, e) := splitExp rest
      (c :: m, e)

/-- The decimal mantissa: digits with at most one dot and at least one digit
overall (`5`, `5.`, `.5`, `3.14` are accepted; `.`, `abc`, `1.2.3` are not). -/
def parseMantissa (cs : List Char) : Option ℚ :=
  let (ip, fp) := splitDot cs
  match fp with
  | none => if allDigits ip && !ip.isEmpty then some ((digitsToNat ip : ℚ)) else none
  | some fpart =>
    if allDigits ip && allDigits fpart && !(ip.isEmpty && fpart.isEmpty) then
      some ((digitsToNat ip : ℚ) + (digitsToNat fpart : ℚ) / ((10 : ℚ) ^ fpart.length))
    else none

/-- The exponent written after `e`/`E`: an optional sign and at least one
digit. -/
def parseExpPart (cs : List Char) : Option ℤ :=
  match cs with
  | [] => none
  | c :: rest =>
    if c = '+' then
      if allDigits rest && !rest.isEmpty then some ((digitsToNat rest : ℤ)) else none
    else if c = '-' then
      if allDigits rest && !rest.isEmpty then some (-(digitsToNat rest : ℤ)) else none
    else if allDigits (c :: rest) then some ((digitsToNat (c :: rest) : ℤ)) else none

/-- Models Go's `strconv.ParseFloat(s, 64)` as far as the adapter's inputs
reach it: an optional sign followed by a decimal mantissa and optional
decimal exponent, plus the case-insensitive special words `inf`/`infinity`
(optionally signed) and `nan` (unsigned), which parse successfully to
non-finite values with no error. Digit-group underscores, hexadecimal floats
and float64 range/rounding are outside the model (finite values are exact
rationals). `none` models a non-nil parse error. -/
def goParseFloat (s : String) : Option GoFloat :=
  let t := s.data.map Char.toLower
  if t = ['i', 'n', 'f'] ∨ t = ['+', 'i', 'n', 'f'] ∨
      t = ['i', 'n', 'f', 'i', 'n', 'i', 't', 'y'] ∨
      t = ['+', 'i', 'n', 'f', 'i', 'n', 'i', 't', 'y'] then
    some (GoFloat.inf false)
  else if t = ['-', 'i', 'n', 'f'] ∨ t = ['-', 'i', 'n', 'f', 'i', 'n', 'i', 't', 'y'] then
    some (GoFloat.inf true)
  else if t = ['n', 'a', 'n'] then some GoFloat.nan
  else
    let (neg, cs) :=
      match s.data with
      | '+' :: rest => (false, rest)
      | '-' :: rest => (true, rest)
      | rest => (false, rest)
    let (mcs, ecs) := splitExp cs
    match parseMantissa mcs with
    | none => none
    | some q =>
      let signed : ℚ := if neg then -q else q
      match ecs with
      | none => some (GoFloat.finite signed)
      | some epart =>
        match parseExpPart epart with
        | none => none
        | some e => some (GoFloat.finite (signed * (10 : ℚ) ^ e))

/-- Part_003's `seriesValue` as produced by the prom-variant normalization:
the parsed value may be a non-finite `float64`. -/
structure promSeriesValue where
  Labels : List (String × String)
  Value : GoFloat
deriving Repr, DecidableEq

/-- The body of the `promResponse.Series` loop (part_003 lines 104-123),
paired with the warnings recorded via `klog.Warningf`: an empty raw string is
skipped silently, a raw string rejected by `strconv.ParseFloat` is skipped
with a warning naming it, and a successfully parsed value is appended. -/
def promSeriesStep (acc : List promSeriesValue × List String) (r : promResult) :
    List promSeriesValue × List String :=
  let raw := promResult.rawValue r
  if raw = "" then acc
  else
    match goParseFloat raw with
    | none => (acc.1, acc.2 ++ [raw])
    | some v => (acc.1 ++ [{ Labels := r.Metric, Value := v }], acc.2)

/-- Models `promResponse.Series` (part_003 lines 102-125) together with its recorded
warnings. -/
def promSeriesWithWarnings (resp : promResponse) :
    List promSeriesValue × List String :=
  resp.Data.Result.foldl promSeriesStep ([], [])

theorem foldl_pairAppendLike {α β γ : Type} (f : List β × List γ → α → List β × List γ)
    (g : α → List β × List γ)
    (hf : ∀ (acc : List β × List γ) (x : α),
      f acc x = (acc.1 ++ (g x).1, acc.2 ++ (g x).2)) :
    ∀ (l : List α) (acc : List β × List γ),
      l.foldl f acc =
        (acc.1 ++ l.flatMap (fun x => (g x).1), acc.2 ++ l.flatMap (fun x => (g x).2)) := by
  intro l
  induction l with
  | nil => intro acc; simp
  | cons x rest ih =>
    intro acc
    rw [List.foldl_cons, hf, ih, List.flatMap_cons, List.flatMap_cons]
    simp [List.append_assoc]

/-- The contribution of a single prom result to the normalized output and the
warnings. -/
def promSeriesEffect (r : promResult) : List promSeriesValue × List String :=
  promSeriesStep ([], []) r

theorem promSeriesStep_effect (acc : List promSeriesValue × List String)
    (r : promResult) :
    promSeriesStep acc r =
      (acc.1 ++ (promSeriesEffect r).1, acc.2 ++ (promSeriesEffect r).2) := by
  unfold promSeriesStep promSeriesEffect promSeriesStep
  by_cases hraw : promResult.rawValue r = ""
  · simp [hraw]
  · cases hp : goParseFloat (promResult.rawValue r) with
    | none => simp [hraw, hp]
    | some v => simp [hraw, hp]

theorem promSeriesWithWarnings_flatMap (resp : promResponse) :
    promSeriesWithWarnings resp =
      (resp.Data.Result.flatMap (fun r => (promSeriesEffect r).1),
        resp.Data.Result.flatMap (fun r => (promSeriesEffect r).2)) := by
  have h := foldl_pairAppendLike promSeriesStep promSeriesEffect promSeriesStep_effect
    resp.Data.Result ([], [])
  simpa [promSeriesWithWarnings] using h

/-- C5 counterexample: a series whose selected raw value is `"NaN"` — not
parseable as a finite number — is NOT dropped: `strconv.ParseFloat` accepts
`"NaN"` with no error, so the series is kept with a NaN value and no warning
is recorded. -/
theorem prom_series_nan_kept_counterexample :
    goParseFloat "NaN" = some GoFloat.nan ∧
      promSeriesWithWarnings
          ⟨"success", ⟨"vector",
            [⟨[("k8s.pod.name", "pod-a")], [JsonValue.other, JsonValue.str "NaN"], []⟩]⟩⟩ =
        ([⟨[("k8s.pod.name", "pod-a")], GoFloat.nan⟩], []) := by
  exact ⟨by decide, by decide⟩

/-- C5 (amended): a series whose non-empty raw value is rejected by
`strconv.ParseFloat` is dropped with a warning recording the raw string, and
every other series of the same response is still normalized exactly as it
would be on its own — a malformed sample never aborts the batch
(normalization is total). Raw strings parsing to non-finite values (`NaN`,
`Inf`) are kept, and an empty/missing raw value is dropped silently. -/
theorem prom_series_malformed_dropped_with_warning (st rt : String)
    (pre post : List promResult) (r : promResult)
    (hraw : promResult.rawValue r ≠ "")
    (hparse : goParseFloat (promResult.rawValue r) = none) :
    promSeriesWithWarnings ⟨st, ⟨rt, pre ++ r :: post⟩⟩ =
      ((promSeriesWithWarnings ⟨st, ⟨rt, pre⟩⟩).1 ++
          (promSeriesWithWarnings ⟨st, ⟨rt, post⟩⟩).1,
        (promSeriesWithWarnings ⟨st, ⟨rt, pre⟩⟩).2 ++
          promResult.rawValue r :: (promSeriesWithWarnings ⟨st, ⟨rt, post⟩⟩).2) := by
  have heff : promSeriesEffect r = ([], [promResult.rawValue r]) := by
    simp [promSeriesEffect, promSeriesStep, hraw, hparse]
  simp [promSeriesWithWarnings_flatMap, List.flatMap_append, List.flatMap_cons, heff]

/-- C5 witness: a good series (`"5"`), a malformed one (`"abc"`), and another
good one (`"7"`). -/
theorem prom_series_malformed_dropped_with_warning_witness :
    promSeriesWithWarnings ⟨"success", ⟨"vector",
        [⟨[("k8s.pod.name", "pod-a")], [JsonValue.other, JsonValue.str "5"], []⟩] ++
          (⟨[("k8s.pod.name", "pod-b")], [JsonValue.other, JsonValue.str "abc"], []⟩ : promResult) ::
          [⟨[("k8s.pod.name", "pod-c")], [JsonValue.other, JsonValue.str "7"], []⟩]⟩⟩ =
      ((promSeriesWithWarnings ⟨"success", ⟨"vector",
            [⟨[("k8s.pod.name", "pod-a")], [JsonValue.other, JsonValue.str "5"], []⟩]⟩⟩).1 ++
          (promSeriesWithWarnings ⟨"success", ⟨"vector",
            [⟨[("k8s.pod.name", "pod-c")], [JsonValue.other, JsonValue.str "7"], []⟩]⟩⟩).1,
        (promSeriesWithWarnings ⟨"success", ⟨"vector",
            [⟨[("k8s.pod.name", "pod-a")], [JsonValue.other, JsonValue.str "5"], []⟩]⟩⟩).2 ++
          promResult.rawValue
              (⟨[("k8s.pod.name", "pod-b")], [JsonValue.other, JsonValue.str "abc"], []⟩ : promResult) ::
            (promSeriesWithWarnings ⟨"success", ⟨"vector",
              [⟨[("k8s.pod.name", "pod-c")], [JsonValue.other, JsonValue.str "7"], []⟩]⟩⟩).2) :=
  prom_series_malformed_dropped_with_warning "success" "vector"
    [⟨[("k8s.pod.name", "pod-a")], [JsonValue.other, JsonValue.str "5"], []⟩]
    [⟨[("k8s.pod.name", "pod-c")], [JsonValue.other, JsonValue.str "7"], []⟩]
    ⟨[("k8s.pod.name", "pod-b")], [JsonValue.other, JsonValue.str "abc"], []⟩
    (by decide) (by decide)

/-- The status check of the v1 client `signozClient.query` (test-adapter
signoz.go lines 64-73) after the response body decoded successfully: a status
other than `"success"` becomes an error carrying the backend's status string
and no series reach the aggregator; otherwise the normalized series are
returned. -/
def queryV1StatusStep (resp : promResponse) : Except String (List promSeriesValue) :=
  if resp.Status ≠ "success" then
    Except.error ("query failed with status: " ++ resp.Status)
  else
    Except.ok (promSeriesWithWarnings resp).1

/-- The tail of the v5 client `SignozClient.Query` (part_005 lines 166-171)
after the response body decoded successfully: the decoded response is
returned as-is — the `Status` field is never inspected. -/
def queryV5DecodeStep (resp : SignozQueryRangeResponse) :
    Except String SignozQueryRangeResponse :=
  Except.ok resp

/-- A decoded v5 response whose status field is `"error"` and which carries
one series. -/
def sampleRejectedResponse : SignozQueryRangeResponse :=
  ⟨"error", ⟨"time_series", ⟨[⟨"A", [⟨0, "", [⟨[⟨"k8s.pod.name", "pod-a"⟩], [⟨1, 5⟩]⟩]⟩]⟩]⟩⟩⟩

/-- C6 counterexample: a v5 response that decodes successfully but whose
status field is `"error"` is returned without any error by
`SignozClient.Query`, and its (non-empty) series still reach the aggregator. -/
theorem query_status_not_checked_counterexample :
    queryV5DecodeStep sampleRejectedResponse = Except.ok sampleRejectedResponse ∧
      sampleRejectedResponse.Status ≠ "success" ∧
      sampleRejectedResponse.Series.length = 1 := by
  exact ⟨rfl, by decide, by decide⟩

/-- C6 (amended): after a successful JSON decode with a status field other
than the `"success"` marker, the prometheus-variant client rejects the query
with an error carrying the backend's status string (and returns no series),
whereas the v5 builder client never inspects the status field and returns the
decoded response — series included — unchanged. -/
theorem query_status_rejected (resp : promResponse)
    (h : resp.Status ≠ "success") :
    queryV1StatusStep resp =
        Except.error ("query failed with status: " ++ resp.Status) ∧
      ∀ resp5 : SignozQueryRangeResponse, queryV5DecodeStep resp5 = Except.ok resp5 :=
  ⟨by simp [queryV1StatusStep, h], fun _ => rfl⟩

/-- C6 witness: a v1 response with status `"error"`. -/
theorem query_status_rejected_witness :
    queryV1StatusStep ⟨"error", ⟨"", []⟩⟩ =
        Except.error ("query failed with status: " ++ "error") ∧
      ∀ resp5 : SignozQueryRangeResponse, queryV5DecodeStep resp5 = Except.ok resp5 :=
  query_status_rejected ⟨"error", ⟨"", []⟩⟩ (by decide)

/-- Sanity check against the spec's group-aggregation example: series
`[(pod-a,2),(pod-a,3),(pod-b,10)]` with object names `pod-a, pod-b, pod-c`
aggregate to `pod-a ↦ 5, pod-b ↦ 10`, with `pod-c` omitted. -/
theorem group_aggregation_spec_example :
    metricBySelectorItems
        [⟨[("k8s.pod.name", "pod-a")], 2⟩, ⟨[("k8s.pod.name", "pod-a")], 3⟩,
         ⟨[("k8s.pod.name", "pod-b")], 10⟩] ["pod-a", "pod-b", "pod-c"] =
      [("pod-a", 5), ("pod-b", 10)] := by
  norm_num [metricBySelectorItems, byPodMap, byPodStep, addTo, assocFind, podLabelKey]
  simp

/-- Sanity check against the spec's last-value example: a series with points
`(1,5), (2,7)` normalizes to the single value `7`. -/
theorem series_last_value_example :
    (SignozQueryRangeResponse.Series
        ⟨"success", ⟨"time_series",
          ⟨[⟨"A", [⟨0, "", [⟨[⟨"k8s.pod.name", "pod-a"⟩], [⟨1, 5⟩, ⟨2, 7⟩]⟩]⟩]⟩]⟩⟩⟩) =
      [⟨[("k8s.pod.name", "pod-a")], 7⟩] := by
  decide

end SignozAdapter
